import Mathlib

/-!
Verification of `blogware.py` (a minimal static-site generator core).

We shallowly embed the Python source into Lean:
* Python exceptions are modelled by the `PyErr` type and `Except PyErr`.
* Python `dict`s are modelled as association lists `List (String × V)`
  (first-match lookup; `dict` construction keeps keys unique).
* Python strings are Lean `String`s; the handful of `str` methods the
  source uses (`lstrip`, `startswith`, `replace(old, new, 1)`,
  `split(sep, 1)`, `str.format`) are implemented faithfully below.
* Lazy attribute caches (`_content`, `_frontmatter`, `_body`) become
  explicit state records, and each property access is a state transformer
  returning `Except PyErr result × state`.
* The external TOML parser (`tomli.loads`) is an out-of-scope collaborator
  and is passed in as a function `String → Except PyErr (List (String × String))`;
  scalar TOML values are modelled by their rendered text, since templating
  only ever stringifies them.
* Filesystem paths are modelled as lists of path components of normalized
  absolute POSIX paths (`List String`), and the filesystem itself, where
  needed, as a function from such a path to the optional parsed content of
  that directory's `config.toml`.
-/

/-- Python exception kinds relevant to the embedded code. -/
inductive PyErr where
  | typeError
  | keyError
  | valueError
  | tomlDecodeError
  | ioError
deriving DecidableEq, Repr

/-- Decidable equality for `Except`, so that concrete outcomes can be
checked by `decide`. -/
instance {E A : Type} [DecidableEq E] [DecidableEq A] : DecidableEq (Except E A) :=
  fun a b =>
    match a, b with
    | Except.ok x, Except.ok y =>
      if h : x = y then Decidable.isTrue (by rw [h])
      else Decidable.isFalse (by intro hh; cases hh; exact h rfl)
    | Except.ok _, Except.error _ => Decidable.isFalse (by intro hh; cases hh)
    | Except.error _, Except.ok _ => Decidable.isFalse (by intro hh; cases hh)
    | Except.error x, Except.error y =>
      if h : x = y then Decidable.isTrue (by rw [h])
      else Decidable.isFalse (by intro hh; cases hh; exact h rfl)

/-- First-match lookup in an association list, the semantics of `d[k]`
reading a Python dict (Python dicts never hold duplicate keys, so
first-match agrees with the dict; on lists with duplicates we fix the
first occurrence as authoritative, matching how our update functions
rewrite every occurrence of a key). -/
def pyLookup {V : Type} : List (String × V) → String → Option V
  | [], _ => none
  | (k', v) :: rest, k => if k = k' then some v else pyLookup rest k

/-- Left-biased choice on options, used to state override semantics:
`optOr a b` is `a` when `a` carries a value, else `b`. -/
def optOr {V : Type} : Option V → Option V → Option V
  | some v, _ => some v
  | none, o => o

/-- Inserting one key/value pair into a dict: overwrite the value if the
key is present, append otherwise.  This is the effect of one step of
Python dict construction. -/
def dictInsert {V : Type} (d : List (String × V)) (kv : String × V) : List (String × V) :=
  if d.any (fun p => p.1 = kv.1) then
    d.map (fun p => if p.1 = kv.1 then (p.1, kv.2) else p)
  else
    d ++ [kv]

/-- Model of the Python expression `{**a, **b}`: start from dict `a`
(assumed already deduplicated, as every Python dict is) and insert all
of `b`'s entries, later keys overwriting. -/
def pyMerge {V : Type} (a b : List (String × V)) : List (String × V) :=
  b.foldl dictInsert a

/-- Model of building the keyword arguments of a call `f(**base, **d)`:
each entry of `d` is added in order, and a key already present raises
`TypeError` (Python: got multiple values for keyword argument). -/
def addKwargs {V : Type} (base : List (String × V)) (d : List (String × V)) :
    Except PyErr (List (String × V)) :=
  d.foldlM
    (fun acc kv =>
      if (pyLookup acc kv.1).isSome then Except.error PyErr.typeError
      else Except.ok (acc ++ [kv]))
    base

/-- Characters stripped by Python `str.lstrip()` with no argument
(ASCII whitespace; the source never feeds it other Unicode space). -/
def pyIsSpace (c : Char) : Bool :=
  c = ' ' || c = '\t' || c = '\n' || c = '\x0d' || c = '\x0b' || c = '\x0c'

/-- Python `s.lstrip()` on the character list. -/
def pyLstripList (s : List Char) : List Char :=
  s.dropWhile pyIsSpace

/-- Python `s.startswith(pre)` on character lists. -/
def pyStartswithList (s pre : List Char) : Bool :=
  pre.isPrefixOf s

/-- Locate the first occurrence of `sep` (nonempty) in `s`, returning the
text before it and the text after it.  `none` when `sep` does not occur.
This is the common core of Python `s.replace(sep, new, 1)` and
`s.split(sep, 1)`. -/
def splitOnceList (sep : List Char) : List Char → Option (List Char × List Char)
  | [] => none
  | c :: rest =>
    if sep.isPrefixOf (c :: rest) then
      some ([], (c :: rest).drop sep.length)
    else
      match splitOnceList sep rest with
      | some (pre, post) => some (c :: pre, post)
      | none => none

/-- Python `s.replace(old, new, 1)` on character lists: replace the first
occurrence of `old` only, leave `s` unchanged when `old` is absent. -/
def pyReplaceOnceList (s old new : List Char) : List Char :=
  match splitOnceList old s with
  | some (pre, post) => pre ++ new ++ post
  | none => s

/-- String wrappers for the character-list primitives. -/
def pyLstrip (s : String) : String := ⟨pyLstripList s.data⟩

def pyStartswith (s pre : String) : Bool := pyStartswithList s.data pre.data

def pyReplaceOnce (s old new : String) : String :=
  ⟨pyReplaceOnceList s.data old.data new.data⟩

/-- Python `s.split(sep, 1)`: two parts when `sep` occurs, otherwise the
single part `s` (represented by `none`, which makes the two-variable
tuple unpacking in the source raise `ValueError`). -/
def pySplitOnce (s sep : String) : Option (String × String) :=
  (splitOnceList sep.data s.data).map (fun p => (⟨p.1⟩, ⟨p.2⟩))

/-- Scan a replacement field of `str.format` after an opening brace: the
field name up to the closing brace, plus the remaining input.  `none`
when the brace is never closed (Python raises `ValueError`). -/
def scanField : List Char → Option (List Char × List Char)
  | [] => none
  | c :: rest =>
    if c = '}' then some ([], rest)
    else
      match scanField rest with
      | some (n, r) => some (c :: n, r)
      | none => none

/-- Core of Python `str.format` restricted to what the source uses: the
template is scanned left to right; a doubled brace emits a literal brace,
a replacement field of the form open-brace, name, close-brace is looked
up among the keyword arguments (`KeyError` when absent, as a Python
format call with a missing name raises), a lone closing brace or an
unclosed field raises `ValueError`.  Values are already strings in our
model, matching how `format` stringifies scalars.  The `fuel` argument
only bounds recursion; every step consumes at least one input character,
so `fuel = length + 1` always reaches the true result. -/
def fmtGo (kw : List (String × String)) : Nat → List Char → Except PyErr (List Char)
  | 0, _ => Except.error PyErr.valueError
  | _ + 1, [] => Except.ok []
  | fuel + 1, c :: rest =>
    if c = '{' then
      match rest with
      | '{' :: rest2 => (fmtGo kw fuel rest2).map (fun t => '{' :: t)
      | _ =>
        match scanField rest with
        | some (n, r) =>
          match pyLookup kw ⟨n⟩ with
          | some v => (fmtGo kw fuel r).map (fun t => v.data ++ t)
          | none => Except.error PyErr.keyError
        | none => Except.error PyErr.valueError
    else if c = '}' then
      match rest with
      | '}' :: rest2 => (fmtGo kw fuel rest2).map (fun t => '}' :: t)
      | _ => Except.error PyErr.valueError
    else
      (fmtGo kw fuel rest).map (fun t => c :: t)

/-- Model of `TEMPLATE_FN = str.format`: `s.format(**kw)`. -/
def pyFormat (s : String) (kw : List (String × String)) : Except PyErr String :=
  (fmtGo kw (s.data.length + 1) s.data).map (fun t => ⟨t⟩)

namespace File

/-- Mutable state of a `File` object relevant to `content`: the
`_content` cache, `None` before the first successful read. -/
structure State where
  contentCache : Option String
deriving DecidableEq, Repr

/-- Model of the `File.content` property.  One access is parametrized by
the outcome `readResult` the filesystem would give if `open(path).read()`
ran during this access; the cache branch never consults it, mirroring
that no read is performed when `_content` is already set.  The code is

if self._content is None: self._content = open(self.path).read()
return self._content

so a raised I/O error skips the assignment and leaves the cache `None`. -/
def content (readResult : Except PyErr String) (st : State) :
    Except PyErr String × State :=
  match st.contentCache with
  | some c => (Except.ok c, st)
  | none =>
    match readResult with
    | Except.ok s => (Except.ok s, ⟨some s⟩)
    | Except.error e => (Except.error e, st)

end File

namespace FrontMatterFile

/-- Possible runtime values of the `_frontmatter` attribute: the initial
`None`, a parsed dict, or — after `split_frontmatter` assigned the raw
split parts and the TOML parser then raised — the raw unparsed string. -/
inductive FMCache where
  | noneC : FMCache
  | dict : List (String × String) → FMCache
  | raw : String → FMCache
deriving DecidableEq, Repr

/-- Value returned by the `frontmatter` property: normally a dict, but a
raw string when the cache was left holding one. -/
inductive FMValue where
  | dict : List (String × String) → FMValue
  | raw : String → FMValue
deriving DecidableEq, Repr

/-- Mutable state of a `FrontMatterFile`.  We take the raw `content` as
already loaded (its caching behaviour is verified separately on
`File.State`); `fmCache` and `bodyCache` model `_frontmatter` and
`_body`. -/
structure State where
  content : String
  fmCache : FMCache
  bodyCache : Option String
deriving DecidableEq, Repr

/-- State of a freshly constructed `FrontMatterFile` whose content is
`c`: both caches are `None`. -/
def fresh (c : String) : State := ⟨c, FMCache.noneC, none⟩

/-- Model of `FrontMatterFile.split_frontmatter` with the external TOML
parser `parser` (= `FRONTMATTER_PARSER`).  The code is

if self.content.lstrip().startswith('---'):
    self._frontmatter, self._body = (
        self.content.replace('---', '', 1).split('---', 1))
    return FRONTMATTER_PARSER(self._frontmatter), self._body
return {}, self._content

When the split yields a single part, the tuple unpacking raises
`ValueError` before any assignment, leaving the caches untouched; when it
yields two parts, both caches are assigned the raw strings before the
parser runs, so a parser failure leaves the raw strings cached. -/
def split_frontmatter (parser : String → Except PyErr (List (String × String)))
    (st : State) : Except PyErr (List (String × String) × String) × State :=
  if pyStartswith (pyLstrip st.content) "---" then
    match pySplitOnce (pyReplaceOnce st.content "---" "") "---" with
    | none => (Except.error PyErr.valueError, st)
    | some (fmRaw, bodyRaw) =>
      let st' : State := ⟨st.content, FMCache.raw fmRaw, some bodyRaw⟩
      match parser fmRaw with
      | Except.ok d => (Except.ok (d, bodyRaw), st')
      | Except.error e => (Except.error e, st')
  else
    (Except.ok ([], st.content), st)

/-- Model of the `frontmatter` property:

if self._frontmatter == None:
    self._frontmatter, self._body = self.split_frontmatter()
return self._frontmatter

The `== None` comparison is false for both a dict (even the empty one)
and a raw string, so either kind of cached value is returned as is. -/
def frontmatter (parser : String → Except PyErr (List (String × String)))
    (st : State) : Except PyErr FMValue × State :=
  match st.fmCache with
  | FMCache.dict d => (Except.ok (FMValue.dict d), st)
  | FMCache.raw s => (Except.ok (FMValue.raw s), st)
  | FMCache.noneC =>
    match split_frontmatter parser st with
    | (Except.ok (d, b), st') =>
      (Except.ok (FMValue.dict d), ⟨st'.content, FMCache.dict d, some b⟩)
    | (Except.error e, st') => (Except.error e, st')

/-- Model of the `body` property, symmetric to `frontmatter`:

if self._body == None:
    self._frontmatter, self._body = self.split_frontmatter()
return self._body
-/
def body (parser : String → Except PyErr (List (String × String)))
    (st : State) : Except PyErr String × State :=
  match st.bodyCache with
  | some b => (Except.ok b, st)
  | none =>
    match split_frontmatter parser st with
    | (Except.ok (d, b), st') =>
      (Except.ok b, ⟨st'.content, FMCache.dict d, some b⟩)
    | (Except.error e, st') => (Except.error e, st')

/-- Model of `FrontMatterFile.template`:

return TEMPLATE_FN(self.body, **vars, **self.frontmatter)

Python evaluates `self.body`, then unpacks `vars`, then unpacks
`self.frontmatter`; a key occurring in both unpackings raises
`TypeError` before `str.format` runs, and unpacking a non-dict (the raw
string left by a failed parse) also raises `TypeError`. -/
def template (parser : String → Except PyErr (List (String × String)))
    (vars : List (String × String)) (st : State) : Except PyErr String × State :=
  match body parser st with
  | (Except.error e, st1) => (Except.error e, st1)
  | (Except.ok bodyStr, st1) =>
    match frontmatter parser st1 with
    | (Except.error e, st2) => (Except.error e, st2)
    | (Except.ok (FMValue.raw _), st2) => (Except.error PyErr.typeError, st2)
    | (Except.ok (FMValue.dict d), st2) =>
      match addKwargs vars d with
      | Except.error e => (Except.error e, st2)
      | Except.ok kw => (pyFormat bodyStr kw, st2)

end FrontMatterFile

namespace Iter

/-- Model of `Iter.match_exec`'s loop over the current working sequence.
The first accumulator is the local `items` buffer (`items.append(item)`
for every item), the second records the sequence of arguments on which
`fn` was invoked (`if predicate(item): fn(item, ...)`), which captures
how many times and in what order the side-effecting callback ran. -/
def matchExecGo {α : Type} (p : α → Bool) :
    List α → List α → List α → List α × List α
  | [], buf, calls => (buf, calls)
  | x :: xs, buf, calls =>
    matchExecGo p xs (buf ++ [x]) (if p x then calls ++ [x] else calls)

/-- Model of `Iter.match_exec`: consume `self.items`, then set
`self.items` to the buffered list.  Returns (new working sequence,
trace of `fn` invocations). -/
def match_exec {α : Type} (p : α → Bool) (items : List α) : List α × List α :=
  matchExecGo p items [] []

/-- Items held by an `Iter`: each is a `FrontMatterFile` (for a file
entry) or a `DirIndex` (for a directory entry), as produced by
`DirIndex.items`. -/
inductive Entry where
  | file : FrontMatterFile.State → Entry
  | dirIndex : List String → Entry
deriving DecidableEq

/-- Model of the module-level predicate `is_file` (`isinstance(obj, File)`). -/
def is_file : Entry → Bool
  | Entry.file _ => true
  | Entry.dirIndex _ => false

/-- Model of `Iter.files`: `self.items = filter(is_file, self.items)`. -/
def files (items : List Entry) : List Entry :=
  items.filter is_file

end Iter

/-- Parent directory of an absolute path given as its component list:
`os.path.split(dir)[0]`.  At the filesystem root `os.path.split('/')`
returns `('/', '')`, so the root is its own parent. -/
def parentDir (dir : List String) : List String :=
  dir.dropLast

/-- Model of `get_config(dir, root)`.  `fs dir` is the parsed content of
`dir + '/config.toml'` when that file exists (`CONFIG_PARSER` applied to
its text), `none` when it does not.  Directories are normalized absolute
component lists, so the `os.path.samefile(dir, root)` check becomes list
equality.  The Python function has no termination guard; `fuel` bounds
the recursion depth explicitly, and a `none` result means the call did
not return within `fuel` nested calls — a run of the unbounded Python
recursion to that depth has not produced a value. -/
def get_config {V : Type} (fs : List String → Option (List (String × V)))
    (root : List String) : Nat → List String → Option (List (String × V))
  | 0, _ => none
  | fuel + 1, dir =>
    let config := (fs dir).getD []
    if dir = root then
      some config
    else
      (get_config fs root fuel (parentDir dir)).map (fun parent => pyMerge parent config)

/-- Modelled from the spec (refinement target for `get_config`): the
spec's `resolve(directory, root)` described extensionally as a lookup
function, for a directory `root ++ suffix`.  Per §4.6, the result is the
directory's own key when present, otherwise the parent's resolved value
— own keys overlay the parent result (shallow overwrite). -/
def specResolve {V : Type} (fs : List String → Option (List (String × V)))
    (root : List String) : List String → String → Option V
  | [], k => pyLookup ((fs root).getD []) k
  | c :: rest, k =>
    optOr (pyLookup ((fs (root ++ (c :: rest))).getD []) k)
      (specResolve fs root (c :: rest).dropLast k)
termination_by s => s.length
decreasing_by
  simp [List.length_dropLast, List.length_cons]

/-- Concrete two-level filesystem for the spec's §8.5 example: root `R`
holds `config.toml` with `a = 1`, subdirectory `R/sub` holds
`config.toml` with `a = 2, b = 3`. -/
def exFs : List String → Option (List (String × Int)) :=
  fun d =>
    if d = ["R"] then some [("a", 1)]
    else if d = ["R", "sub"] then some [("a", 2), ("b", 3)]
    else none

/-- Concrete filesystem with no config files anywhere, for exercising
`get_config` with a root that is not an ancestor of the directory. -/
def emptyFs : List String → Option (List (String × Int)) :=
  fun _ => none

/-- Concrete stand-in for the external `tomli.loads` collaborator, used
by the closed witness statements: it reproduces the collaborator's
documented behaviour on the two well-formed frontmatter regions the
witnesses use and rejects everything else. -/
def tomlStub : String → Except PyErr (List (String × String)) :=
  fun s =>
    if s = "\nkey = \"v\"\n" then Except.ok [("key", "v")]
    else if s = "\nk = \"f\"\n" then Except.ok [("k", "f")]
    else Except.error PyErr.tomlDecodeError

namespace Path

/-- Normalization that `os.path.abspath` applies to an absolute path
given as components: empty and `.` components vanish, `..` removes the
preceding component (at the root it is dropped). -/
def normAbs (l : List String) : List String :=
  l.foldl
    (fun acc c =>
      if c = "" ∨ c = "." then acc
      else if c = ".." then acc.dropLast
      else acc ++ [c])
    []

/-- Length of the longest common prefix of two component lists, as
`posixpath.relpath` computes it. -/
def cpl : List String → List String → Nat
  | a :: as, b :: bs => if a = b then cpl as bs + 1 else 0
  | _, _ => 0

/-- Model of `os.path.relpath(p, start)` for absolute component paths:
normalize both, strip the common prefix, climb with `..` for what
remains of `start`, and return `.` when nothing remains at all. -/
def pyRelpath (p start : List String) : List String :=
  let p' := normAbs p
  let s' := normAbs start
  let i := cpl p' s'
  let rel := List.replicate (s'.length - i) ".." ++ p'.drop i
  if rel = [] then ["."] else rel

/-- Model of `os.path.join(base, rel)` for an absolute `base` and a
relative `rel`: concatenation, with no normalization (so a joined `.`
stays, exactly as the string `'B/.'` differs from `'B'`). -/
def pyJoin (base rel : List String) : List String :=
  base ++ rel

/-- Model of `Path.swap_root`:

relpath = os.path.relpath(self, old_root)
return Path(os.path.join(new_root, relpath))
-/
def swap_root (p old_root new_root : List String) : List String :=
  pyJoin new_root (pyRelpath p old_root)

/-- Component lists of normalized paths: no empty, `.` or `..`
components. -/
def normalComps (l : List String) : Prop :=
  ∀ c ∈ l, c ≠ "" ∧ c ≠ "." ∧ c ≠ ".."

instance (l : List String) : Decidable (normalComps l) := by
  unfold normalComps
  infer_instance

end Path

section Lemmas

variable {V : Type}

theorem optOr_none_right (o : Option V) : optOr o none = o := by
  cases o <;> rfl

theorem pyLookup_append (a b : List (String × V)) (k : String) :
    pyLookup (a ++ b) k = optOr (pyLookup a k) (pyLookup b k) := by
  induction a with
  | nil => simp [pyLookup, optOr]
  | cons p a ih =>
    obtain ⟨k', v⟩ := p
    by_cases h : k = k' <;> simp [pyLookup, h, ih, optOr]

theorem pyLookup_eq_none_iff (d : List (String × V)) (k : String) :
    pyLookup d k = none ↔ k ∉ d.map Prod.fst := by
  induction d with
  | nil => simp [pyLookup]
  | cons p d ih =>
    obtain ⟨k', v⟩ := p
    by_cases h : k = k' <;> simp [pyLookup, h, ih]

theorem any_key_eq_isSome (d : List (String × V)) (k1 : String) :
    (d.any (fun p => p.1 = k1)) = (pyLookup d k1).isSome := by
  induction d with
  | nil => simp [pyLookup]
  | cons p d ih =>
    obtain ⟨k', v⟩ := p
    by_cases h : k1 = k'
    · simp [pyLookup, h]
    · have h' : ¬ (k' = k1) := fun hh => h hh.symm
      simp [pyLookup, h, h', ih]

theorem pyLookup_mapUpdate (d : List (String × V)) (k1 : String) (v1 : V) (k : String) :
    pyLookup (d.map (fun p => if p.1 = k1 then (p.1, v1) else p)) k =
      if k = k1 then (pyLookup d k1).map (fun _ => v1) else pyLookup d k := by
  induction d with
  | nil => simp [pyLookup]
  | cons p d ih =>
    obtain ⟨k', v⟩ := p
    simp only [List.map_cons]
    by_cases h1 : k' = k1
    · subst h1
      simp only [if_pos rfl]
      by_cases h2 : k = k'
      · subst h2
        simp [pyLookup, ih]
      · simp [pyLookup, h2, ih]
    · simp only [if_neg h1]
      have h1' : ¬ k1 = k' := fun hh => h1 hh.symm
      by_cases h2 : k = k'
      · subst h2
        simp [pyLookup, h1]
      · simp [pyLookup, h2, ih, h1']

theorem pyLookup_dictInsert (d : List (String × V)) (k1 : String) (v1 : V) (k : String) :
    pyLookup (dictInsert d (k1, v1)) k = if k = k1 then some v1 else pyLookup d k := by
  unfold dictInsert
  by_cases hmem : (pyLookup d k1).isSome
  · rw [show (d.any (fun p => p.1 = (k1, v1).1)) = true by
      simpa [any_key_eq_isSome] using hmem]
    simp only [if_true]
    rw [pyLookup_mapUpdate]
    by_cases h : k = k1
    · obtain ⟨w, hw⟩ := Option.isSome_iff_exists.mp hmem
      simp [h, hw]
    · simp [h]
  · rw [show (d.any (fun p => p.1 = (k1, v1).1)) = false by
      simpa [any_key_eq_isSome] using hmem]
    simp only [if_false, Bool.false_eq_true]
    rw [pyLookup_append]
    by_cases h : k = k1
    · subst h
      have hnone : pyLookup d k = none := Option.not_isSome_iff_eq_none.mp hmem
      simp [hnone, pyLookup, optOr]
    · simp [pyLookup, h, optOr_none_right]

theorem pyLookup_pyMerge (a b : List (String × V))
    (hb : (b.map Prod.fst).Nodup) (k : String) :
    pyLookup (pyMerge a b) k = optOr (pyLookup b k) (pyLookup a k) := by
  induction b generalizing a with
  | nil => simp [pyMerge, pyLookup, optOr]
  | cons p b ih =>
    obtain ⟨k1, v1⟩ := p
    have hb' : (b.map Prod.fst).Nodup := (List.nodup_cons.mp (by simpa using hb)).2
    have hnot : k1 ∉ b.map Prod.fst := (List.nodup_cons.mp (by simpa using hb)).1
    have hfold : pyMerge a ((k1, v1) :: b) = pyMerge (dictInsert a (k1, v1)) b := rfl
    rw [hfold, ih _ hb']
    by_cases h : k = k1
    · subst h
      have hbnone : pyLookup b k = none := (pyLookup_eq_none_iff b k).mpr hnot
      simp [hbnone, pyLookup, optOr, pyLookup_dictInsert]
    · simp [pyLookup, h, pyLookup_dictInsert]

theorem addKwargs_disjoint (base d : List (String × V))
    (hd : (d.map Prod.fst).Nodup)
    (hdisj : ∀ kv ∈ d, pyLookup base kv.1 = none) :
    addKwargs base d = Except.ok (base ++ d) := by
  induction d generalizing base with
  | nil =>
    simp only [addKwargs, List.foldlM_nil, List.append_nil]
    rfl
  | cons p d ih =>
    obtain ⟨k1, v1⟩ := p
    have hb1 : pyLookup base k1 = none := hdisj (k1, v1) (List.mem_cons_self _ _)
    have hd' : (d.map Prod.fst).Nodup := (List.nodup_cons.mp (by simpa using hd)).2
    have hnot : k1 ∉ d.map Prod.fst := (List.nodup_cons.mp (by simpa using hd)).1
    have step : addKwargs base ((k1, v1) :: d) = addKwargs (base ++ [(k1, v1)]) d := by
      simp only [addKwargs, List.foldlM_cons, hb1, Option.isSome_none, Bool.false_eq_true,
        if_false]
      rfl
    rw [step, ih (base ++ [(k1, v1)])]
    · simp
    · exact hd'
    · intro kv hkv
      have hkne : kv.1 ≠ k1 := by
        intro hh
        exact hnot (hh ▸ (List.mem_map.mpr ⟨kv, hkv, rfl⟩))
      rw [pyLookup_append]
      have : pyLookup [(k1, v1)] kv.1 = none := by simp [pyLookup, hkne]
      rw [hdisj kv (List.mem_cons_of_mem _ hkv), this]
      rfl

theorem addKwargs_collision (base d : List (String × V))
    (h : ∃ k, (pyLookup base k).isSome ∧ (pyLookup d k).isSome) :
    addKwargs base d = Except.error PyErr.typeError := by
  induction d generalizing base with
  | nil =>
    obtain ⟨k, _, hk⟩ := h
    simp [pyLookup] at hk
  | cons p d ih =>
    obtain ⟨k1, v1⟩ := p
    by_cases hb1 : (pyLookup base k1).isSome
    · simp only [addKwargs, List.foldlM_cons, hb1, if_true]
      rfl
    · obtain ⟨k, hbase, hd⟩ := h
      have hkne : k ≠ k1 := by
        intro hh
        exact hb1 (hh ▸ hbase)
      have hd2 : (pyLookup d k).isSome := by
        simpa [pyLookup, hkne] using hd
      have step : addKwargs base ((k1, v1) :: d) = addKwargs (base ++ [(k1, v1)]) d := by
        simp only [Bool.not_eq_true] at hb1
        simp only [addKwargs, List.foldlM_cons, hb1, Bool.false_eq_true, if_false]
        rfl
      rw [step]
      apply ih
      refine ⟨k, ?_, hd2⟩
      rw [pyLookup_append]
      obtain ⟨w, hw⟩ := Option.isSome_iff_exists.mp hbase
      simp [hw, optOr]

theorem matchExecGo_spec {α : Type} (p : α → Bool) (xs buf calls : List α) :
    Iter.matchExecGo p xs buf calls = (buf ++ xs, calls ++ xs.filter p) := by
  induction xs generalizing buf calls with
  | nil => simp [Iter.matchExecGo]
  | cons x xs ih =>
    rw [Iter.matchExecGo, ih]
    by_cases h : p x <;> simp [h, List.filter_cons]

theorem get_config_stuck_at_root_dir {V : Type}
    (fs : List String → Option (List (String × V))) (root : List String)
    (hroot : root ≠ []) :
    ∀ fuel, get_config fs root fuel [] = none := by
  intro fuel
  induction fuel with
  | zero => rfl
  | succ n ih =>
    have hne : ([] : List String) ≠ root := fun h => hroot h.symm
    simp [get_config, hne, parentDir, ih]

theorem specResolve_concat {V : Type} (fs : List String → Option (List (String × V)))
    (root s : List String) (a : String) (k : String) :
    specResolve fs root (s ++ [a]) k =
      optOr (pyLookup ((fs (root ++ (s ++ [a]))).getD []) k)
        (specResolve fs root s k) := by
  cases s with
  | nil =>
    simp only [List.nil_append]
    conv_lhs => rw [specResolve]
    rfl
  | cons c rest =>
    rw [show (c :: rest) ++ [a] = c :: (rest ++ [a]) by simp, specResolve]
    have hd : (c :: (rest ++ [a])).dropLast = c :: rest := by
      rw [← List.cons_append]
      exact List.dropLast_concat
    rw [hd]

theorem get_config_refines {V : Type}
    (fs : List String → Option (List (String × V))) (root : List String)
    (hN : ∀ d cfg, fs d = some cfg → (cfg.map Prod.fst).Nodup) :
    ∀ suffix : List String,
      ∃ cfg, get_config fs root (suffix.length + 1) (root ++ suffix) = some cfg ∧
        ∀ k, pyLookup cfg k = specResolve fs root suffix k := by
  intro suffix
  induction suffix using List.reverseRecOn with
  | nil =>
    refine ⟨(fs root).getD [], ?_, ?_⟩
    · simp [get_config]
    · intro k
      rw [specResolve]
  | append_singleton s a ih =>
    obtain ⟨cfg, hcfg, hlook⟩ := ih
    refine ⟨pyMerge cfg ((fs (root ++ (s ++ [a]))).getD []), ?_, ?_⟩
    · have hlen : (s ++ [a]).length + 1 = (s.length + 1) + 1 := by simp
      rw [hlen]
      have hne : root ++ (s ++ [a]) ≠ root := by
        intro hh
        have hlh := congrArg List.length hh
        simp at hlh
      have hpar : parentDir (root ++ (s ++ [a])) = root ++ s := by
        have hassoc : root ++ (s ++ [a]) = (root ++ s) ++ [a] := by
          simp [List.append_assoc]
        unfold parentDir
        rw [hassoc]
        exact List.dropLast_concat
      rw [get_config]
      simp only [if_neg hne, hpar, hcfg]
      rfl
    · intro k
      rw [specResolve_concat, ← hlook k]
      have hnod : (((fs (root ++ (s ++ [a]))).getD []).map Prod.fst).Nodup := by
        cases hfs : fs (root ++ (s ++ [a])) with
        | none => simp
        | some cfg2 => simpa using hN _ _ hfs
      exact pyLookup_pyMerge cfg _ hnod k

namespace Path

theorem normAbs_id {l : List String} (h : normalComps l) : normAbs l = l := by
  suffices haux : ∀ acc : List String,
      l.foldl
        (fun acc c =>
          if c = "" ∨ c = "." then acc
          else if c = ".." then acc.dropLast
          else acc ++ [c])
        acc = acc ++ l by
    simpa [normAbs] using haux []
  induction l with
  | nil => intro acc; simp
  | cons c rest ih =>
    intro acc
    obtain ⟨h1, h2, h3⟩ := h c (List.mem_cons_self _ _)
    have hrest : normalComps rest := fun x hx => h x (List.mem_cons_of_mem _ hx)
    rw [List.foldl_cons]
    have hstep :
        (if c = "" ∨ c = "." then acc
         else if c = ".." then acc.dropLast
         else acc ++ [c]) = acc ++ [c] := by
      simp [h1, h2, h3]
    rw [hstep]
    rw [ih hrest (acc ++ [c])]
    simp

theorem cpl_append_left (A s : List String) : cpl (A ++ s) A = A.length := by
  induction A with
  | nil =>
    cases s <;> simp [cpl]
  | cons a as ih => simp [cpl, ih]

theorem normalComps_append {A B : List String}
    (hA : normalComps A) (hB : normalComps B) : normalComps (A ++ B) := by
  intro c hc
  rcases List.mem_append.mp hc with h | h
  · exact hA c h
  · exact hB c h

theorem pyRelpath_under (A s : List String)
    (hA : normalComps A) (hs : normalComps s) (hne : s ≠ []) :
    pyRelpath (A ++ s) A = s := by
  unfold pyRelpath
  dsimp only
  rw [normAbs_id (normalComps_append hA hs), normAbs_id hA, cpl_append_left]
  simp only [Nat.sub_self, List.replicate_zero, List.nil_append, List.drop_left]
  simp [hne]

end Path

end Lemmas

/-- C5: for every working sequence of an `Iter`, `match_exec(predicate, fn, ...)`
consumes the sequence once in order, invokes `fn` exactly once for each item
satisfying the predicate (in listing order) and never for the others, and then
replaces the working sequence with the buffered list of all items in the same
order, so a chained call such as `files()` still observes every original item. -/
theorem match_exec_calls_and_restores {α : Type} (p : α → Bool) (items : List α)
    (q : Iter.Entry → Bool) (ents : List Iter.Entry) :
    Iter.match_exec p items = (items, items.filter p) ∧
    Iter.files (Iter.match_exec q ents).1 = Iter.files ents := by
  have h2 : Iter.match_exec q ents = (ents, ents.filter q) := by
    unfold Iter.match_exec
    rw [matchExecGo_spec]
    simp
  refine ⟨?_, by rw [h2]⟩
  unfold Iter.match_exec
  rw [matchExecGo_spec]
  simp

/-- C6: `File.content` reads the underlying file at most once: with a cached
value the access returns it unchanged no matter what a read would produce,
a first successful read stores and returns the text, and a failed read
surfaces the error while leaving the state unchanged, so a later retry can
succeed. -/
theorem content_cached_once_failure_not_cached
    (r : Except PyErr String) (c s : String) (e : PyErr) :
    File.content r ⟨some c⟩ = (Except.ok c, ⟨some c⟩) ∧
    File.content (Except.ok s) ⟨none⟩ = (Except.ok s, ⟨some s⟩) ∧
    File.content (Except.error e) ⟨none⟩ = (Except.error e, ⟨none⟩) ∧
    File.content (Except.ok s) (File.content (Except.error e) ⟨none⟩).2 =
      (Except.ok s, ⟨some s⟩) :=
  ⟨rfl, rfl, rfl, rfl⟩

/-- C7: when the content, after stripping leading whitespace, does not begin
with the `---` delimiter, the `frontmatter` property returns an empty mapping
and the `body` property returns the entire unmodified file content. -/
theorem no_delimiter_empty_frontmatter
    (parser : String → Except PyErr (List (String × String))) (c : String)
    (h : pyStartswith (pyLstrip c) "---" = false) :
    FrontMatterFile.frontmatter parser (FrontMatterFile.fresh c) =
      (Except.ok (FrontMatterFile.FMValue.dict []),
        ⟨c, FrontMatterFile.FMCache.dict [], some c⟩) ∧
    FrontMatterFile.body parser (FrontMatterFile.fresh c) =
      (Except.ok c, ⟨c, FrontMatterFile.FMCache.dict [], some c⟩) := by
  have hsplit : FrontMatterFile.split_frontmatter parser
      ⟨c, FrontMatterFile.FMCache.noneC, none⟩ =
      (Except.ok ([], c), ⟨c, FrontMatterFile.FMCache.noneC, none⟩) := by
    simp [FrontMatterFile.split_frontmatter, h]
  constructor
  · simp [FrontMatterFile.frontmatter, FrontMatterFile.fresh, hsplit]
  · simp [FrontMatterFile.body, FrontMatterFile.fresh, hsplit]

/-- Witness for C7 at the concrete content `"hello"`. -/
theorem no_delimiter_empty_frontmatter_witness :
    FrontMatterFile.frontmatter tomlStub (FrontMatterFile.fresh "hello") =
      (Except.ok (FrontMatterFile.FMValue.dict []),
        ⟨"hello", FrontMatterFile.FMCache.dict [], some "hello"⟩) ∧
    FrontMatterFile.body tomlStub (FrontMatterFile.fresh "hello") =
      (Except.ok "hello", ⟨"hello", FrontMatterFile.FMCache.dict [], some "hello"⟩) :=
  no_delimiter_empty_frontmatter tomlStub "hello" (by decide)

/-- C9: when the content, after stripping leading whitespace, begins with the
`---` delimiter but the remainder after removing the first occurrence holds no
further occurrence, `split_frontmatter` raises `ValueError` from the two-way
tuple unpacking instead of returning a (frontmatter, body) pair, and the
caches stay untouched. -/
theorem split_frontmatter_unterminated_raises
    (parser : String → Except PyErr (List (String × String))) (c : String)
    (h1 : pyStartswith (pyLstrip c) "---" = true)
    (h2 : pySplitOnce (pyReplaceOnce c "---" "") "---" = none) :
    FrontMatterFile.split_frontmatter parser (FrontMatterFile.fresh c) =
      (Except.error PyErr.valueError, FrontMatterFile.fresh c) := by
  simp [FrontMatterFile.split_frontmatter, FrontMatterFile.fresh, h1, h2]

/-- Witness for C9 at the concrete content `"---abc"`. -/
theorem split_frontmatter_unterminated_raises_witness :
    FrontMatterFile.split_frontmatter tomlStub (FrontMatterFile.fresh "---abc") =
      (Except.error PyErr.valueError, FrontMatterFile.fresh "---abc") :=
  split_frontmatter_unterminated_raises tomlStub "---abc" (by decide) (by decide)

/-- C10: when the delimited frontmatter region is rejected by the TOML
parser, the first access to the `frontmatter` property raises the parse
failure, but the caches have already been set to the raw delimiter-region
string and the body text; every subsequent access then returns that raw
string, not a mapping, without raising. -/
theorem frontmatter_parse_failure_partial_cache
    (parser : String → Except PyErr (List (String × String)))
    (c fmRaw bodyRaw : String) (e : PyErr)
    (h1 : pyStartswith (pyLstrip c) "---" = true)
    (h2 : pySplitOnce (pyReplaceOnce c "---" "") "---" = some (fmRaw, bodyRaw))
    (h3 : parser fmRaw = Except.error e) :
    FrontMatterFile.frontmatter parser (FrontMatterFile.fresh c) =
      (Except.error e, ⟨c, FrontMatterFile.FMCache.raw fmRaw, some bodyRaw⟩) ∧
    FrontMatterFile.frontmatter parser ⟨c, FrontMatterFile.FMCache.raw fmRaw, some bodyRaw⟩ =
      (Except.ok (FrontMatterFile.FMValue.raw fmRaw),
        ⟨c, FrontMatterFile.FMCache.raw fmRaw, some bodyRaw⟩) := by
  have hsplit : FrontMatterFile.split_frontmatter parser
      ⟨c, FrontMatterFile.FMCache.noneC, none⟩ =
      (Except.error e, ⟨c, FrontMatterFile.FMCache.raw fmRaw, some bodyRaw⟩) := by
    simp [FrontMatterFile.split_frontmatter, h1, h2, h3]
  constructor
  · simp [FrontMatterFile.frontmatter, FrontMatterFile.fresh, hsplit]
  · rfl

/-- Witness for C10 at the concrete content `"---bad---rest"`, whose
delimited region `"bad"` the stub parser rejects. -/
theorem frontmatter_parse_failure_partial_cache_witness :
    FrontMatterFile.frontmatter tomlStub (FrontMatterFile.fresh "---bad---rest") =
      (Except.error PyErr.tomlDecodeError,
        ⟨"---bad---rest", FrontMatterFile.FMCache.raw "bad", some "rest"⟩) ∧
    FrontMatterFile.frontmatter tomlStub
        ⟨"---bad---rest", FrontMatterFile.FMCache.raw "bad", some "rest"⟩ =
      (Except.ok (FrontMatterFile.FMValue.raw "bad"),
        ⟨"---bad---rest", FrontMatterFile.FMCache.raw "bad", some "rest"⟩) :=
  frontmatter_parse_failure_partial_cache tomlStub "---bad---rest" "bad" "rest"
    PyErr.tomlDecodeError (by decide) (by decide) (by rfl)

/-- C3 (code bug evidence): with root `/b` and directory `/a` — a root that
is not the directory or one of its ancestors — `get_config` never returns: no
recursion depth whatsoever produces a result, because `os.path.split` maps
the filesystem root to itself, so the recursion walks `/a → / → / → ...`
unboundedly instead of stopping with a deterministic failure as the spec
requires. -/
theorem get_config_root_unreachable_diverges :
    ∀ fuel : Nat, get_config emptyFs ["b"] fuel ["a"] = none := by
  intro fuel
  cases fuel with
  | zero => rfl
  | succ n =>
    have hstuck := get_config_stuck_at_root_dir emptyFs ["b"] (by simp) n
    have hne : (["a"] : List String) ≠ ["b"] := by decide
    simp [get_config, parentDir, hstuck, hne]

/-- C1 counterexample: with body `"x {k}"`, computed frontmatter
`{k: "f"}` and call variables `{k: "v"}` — a key present in both — the
`template` call raises `TypeError` (duplicate keyword argument from the
two `**` unpackings) instead of returning normally with the
frontmatter's value substituted. -/
theorem template_frontmatter_collision_cex :
    FrontMatterFile.template tomlStub [("k", "v")]
        ⟨"---\nk = \"f\"\n---x {k}", FrontMatterFile.FMCache.dict [("k", "f")], some "x {k}"⟩ =
      (Except.error PyErr.typeError,
        ⟨"---\nk = \"f\"\n---x {k}", FrontMatterFile.FMCache.dict [("k", "f")], some "x {k}"⟩) ∧
    (FrontMatterFile.template tomlStub [("k", "v")]
        ⟨"---\nk = \"f\"\n---x {k}", FrontMatterFile.FMCache.dict [("k", "f")],
          some "x {k}"⟩).1 ≠
      Except.ok "x f" := by
  constructor
  · rfl
  · decide

/-- C1 (amended): for a `FrontMatterFile` whose body and frontmatter are
computed, `template(vars)` substitutes named placeholders in the body
using the union of `vars` and the frontmatter when their key sets are
disjoint; when some key is present in both `vars` and the frontmatter,
`template` raises `TypeError` (duplicate keyword argument) rather than
returning. -/
theorem template_union_or_typeError
    (parser : String → Except PyErr (List (String × String)))
    (c bodyStr : String) (fm vars : List (String × String))
    (hfm : (fm.map Prod.fst).Nodup) :
    ((∀ kv ∈ fm, pyLookup vars kv.1 = none) →
      FrontMatterFile.template parser vars
          ⟨c, FrontMatterFile.FMCache.dict fm, some bodyStr⟩ =
        (pyFormat bodyStr (vars ++ fm),
          ⟨c, FrontMatterFile.FMCache.dict fm, some bodyStr⟩) ∧
      ∀ k, pyLookup (vars ++ fm) k = optOr (pyLookup vars k) (pyLookup fm k)) ∧
    ((∃ k, (pyLookup vars k).isSome ∧ (pyLookup fm k).isSome) →
      FrontMatterFile.template parser vars
          ⟨c, FrontMatterFile.FMCache.dict fm, some bodyStr⟩ =
        (Except.error PyErr.typeError,
          ⟨c, FrontMatterFile.FMCache.dict fm, some bodyStr⟩)) := by
  constructor
  · intro hdisj
    have hkw := addKwargs_disjoint vars fm hfm hdisj
    constructor
    · simp [FrontMatterFile.template, FrontMatterFile.body,
        FrontMatterFile.frontmatter, hkw]
    · intro k
      exact pyLookup_append vars fm k
  · intro hcol
    have hkw := addKwargs_collision vars fm hcol
    simp [FrontMatterFile.template, FrontMatterFile.body,
      FrontMatterFile.frontmatter, hkw]

/-- Witness for C1 (amended): a disjoint call substitutes from the union
of the variables and the frontmatter, and a colliding call raises
`TypeError`. -/
theorem template_union_or_typeError_witness :
    FrontMatterFile.template tomlStub [("a", "1")]
        ⟨"c", FrontMatterFile.FMCache.dict [("k", "f")], some "x {k} {a}"⟩ =
      (Except.ok "x f 1",
        ⟨"c", FrontMatterFile.FMCache.dict [("k", "f")], some "x {k} {a}"⟩) ∧
    FrontMatterFile.template tomlStub [("k", "v")]
        ⟨"d", FrontMatterFile.FMCache.dict [("k", "f")], some "y {k}"⟩ =
      (Except.error PyErr.typeError,
        ⟨"d", FrontMatterFile.FMCache.dict [("k", "f")], some "y {k}"⟩) := by
  constructor
  · have h := (template_union_or_typeError tomlStub "c" "x {k} {a}" [("k", "f")]
      [("a", "1")] (by decide)).1 (by decide)
    rw [h.1]
    rfl
  · exact (template_union_or_typeError tomlStub "d" "y {k}" [("k", "f")]
      [("k", "v")] (by decide)).2 ⟨"k", by decide, by decide⟩

/-- C4 counterexample: for the content `"---\nkey = \"v\"\n---\nbody {key}"`
the body is everything after the closing delimiter, which starts with
the newline that preceded `body` — so `body` is `"\nbody {key}"`, not
`"body {key}"`, and `template({})` gives `"\nbody v"`, not `"body v"`. -/
theorem frontmatter_example_cex :
    (FrontMatterFile.body tomlStub
        (FrontMatterFile.fresh "---\nkey = \"v\"\n---\nbody {key}")).1 =
      Except.ok "\nbody {key}" ∧
    (FrontMatterFile.body tomlStub
        (FrontMatterFile.fresh "---\nkey = \"v\"\n---\nbody {key}")).1 ≠
      Except.ok "body {key}" ∧
    (FrontMatterFile.template tomlStub []
        (FrontMatterFile.fresh "---\nkey = \"v\"\n---\nbody {key}")).1 ≠
      Except.ok "body v" := by
  refine ⟨by rfl, by decide, by decide⟩

/-- C4 (amended): for a `FrontMatterFile` whose content is exactly
`"---\nkey = \"v\"\n---\nbody {key}"` and any parser behaving like
`tomli.loads` on the delimited region, `frontmatter` yields the mapping
`{key: "v"}`, `body` yields `"\nbody {key}"` (the text after the closing
delimiter, leading newline included), and `template({})` yields
`"\nbody v"`. -/
theorem frontmatter_example_split
    (parser : String → Except PyErr (List (String × String)))
    (hp : parser "\nkey = \"v\"\n" = Except.ok [("key", "v")]) :
    FrontMatterFile.frontmatter parser
        (FrontMatterFile.fresh "---\nkey = \"v\"\n---\nbody {key}") =
      (Except.ok (FrontMatterFile.FMValue.dict [("key", "v")]),
        ⟨"---\nkey = \"v\"\n---\nbody {key}",
          FrontMatterFile.FMCache.dict [("key", "v")], some "\nbody {key}"⟩) ∧
    FrontMatterFile.body parser
        (FrontMatterFile.fresh "---\nkey = \"v\"\n---\nbody {key}") =
      (Except.ok "\nbody {key}",
        ⟨"---\nkey = \"v\"\n---\nbody {key}",
          FrontMatterFile.FMCache.dict [("key", "v")], some "\nbody {key}"⟩) ∧
    FrontMatterFile.template parser []
        (FrontMatterFile.fresh "---\nkey = \"v\"\n---\nbody {key}") =
      (Except.ok "\nbody v",
        ⟨"---\nkey = \"v\"\n---\nbody {key}",
          FrontMatterFile.FMCache.dict [("key", "v")], some "\nbody {key}"⟩) := by
  have h1 : pyStartswith (pyLstrip "---\nkey = \"v\"\n---\nbody {key}") "---" = true := by
    decide
  have h2 : pySplitOnce (pyReplaceOnce "---\nkey = \"v\"\n---\nbody {key}" "---" "")
      "---" = some ("\nkey = \"v\"\n", "\nbody {key}") := by
    decide
  have hsplit : FrontMatterFile.split_frontmatter parser
      ⟨"---\nkey = \"v\"\n---\nbody {key}", FrontMatterFile.FMCache.noneC, none⟩ =
      (Except.ok ([("key", "v")], "\nbody {key}"),
        ⟨"---\nkey = \"v\"\n---\nbody {key}",
          FrontMatterFile.FMCache.raw "\nkey = \"v\"\n", some "\nbody {key}"⟩) := by
    simp [FrontMatterFile.split_frontmatter, h1, h2, hp]
  have hfmt : pyFormat "\nbody {key}" [("key", "v")] = Except.ok "\nbody v" := by
    decide
  refine ⟨?_, ?_, ?_⟩
  · simp [FrontMatterFile.frontmatter, FrontMatterFile.fresh, hsplit]
  · simp [FrontMatterFile.body, FrontMatterFile.fresh, hsplit]
  · simp [FrontMatterFile.template, FrontMatterFile.body,
      FrontMatterFile.frontmatter, FrontMatterFile.fresh, hsplit, addKwargs,
      pyLookup, hfmt]

/-- Witness for C4 (amended) with the stub collaborator standing in for
`tomli.loads`. -/
theorem frontmatter_example_split_witness :
    FrontMatterFile.frontmatter tomlStub
        (FrontMatterFile.fresh "---\nkey = \"v\"\n---\nbody {key}") =
      (Except.ok (FrontMatterFile.FMValue.dict [("key", "v")]),
        ⟨"---\nkey = \"v\"\n---\nbody {key}",
          FrontMatterFile.FMCache.dict [("key", "v")], some "\nbody {key}"⟩) ∧
    FrontMatterFile.body tomlStub
        (FrontMatterFile.fresh "---\nkey = \"v\"\n---\nbody {key}") =
      (Except.ok "\nbody {key}",
        ⟨"---\nkey = \"v\"\n---\nbody {key}",
          FrontMatterFile.FMCache.dict [("key", "v")], some "\nbody {key}"⟩) ∧
    FrontMatterFile.template tomlStub []
        (FrontMatterFile.fresh "---\nkey = \"v\"\n---\nbody {key}") =
      (Except.ok "\nbody v",
        ⟨"---\nkey = \"v\"\n---\nbody {key}",
          FrontMatterFile.FMCache.dict [("key", "v")], some "\nbody {key}"⟩) :=
  frontmatter_example_split tomlStub (by rfl)

/-- C2: for a directory `root ++ suffix` that is `root` or one of its
descendants, `get_config` returns the directory's own parsed config when
the directory is the root (empty mapping when the config file is absent),
and otherwise the shallow merge of the parent's resolved config with the
directory's own config, with the directory's top-level keys overwriting
— extensionally, every key resolves per the spec's `resolve` recursion —
and on the concrete example (root `R` with `{a=1}`, `R/sub` with
`{a=2, b=3}`) it returns `{a: 2, b: 3}` for `R/sub` and `{a: 1}` for
`R`. -/
theorem get_config_merge_semantics {V : Type}
    (fs : List String → Option (List (String × V))) (root suffix : List String)
    (hN : ∀ d cfg, fs d = some cfg → (cfg.map Prod.fst).Nodup) :
    (∃ cfg, get_config fs root (suffix.length + 1) (root ++ suffix) = some cfg ∧
        ∀ k, pyLookup cfg k = specResolve fs root suffix k) ∧
    get_config fs root 1 root = some ((fs root).getD []) ∧
    get_config exFs ["R"] 2 ["R", "sub"] = some [("a", 2), ("b", 3)] ∧
    get_config exFs ["R"] 1 ["R"] = some [("a", 1)] := by
  refine ⟨get_config_refines fs root hN suffix, ?_, ?_, ?_⟩
  · simp [get_config]
  · decide
  · decide

/-- Witness for C2, instantiated at the spec's concrete example
filesystem. -/
theorem get_config_merge_semantics_witness :
    get_config exFs ["R"] 2 ["R", "sub"] = some [("a", 2), ("b", 3)] ∧
    get_config exFs ["R"] 1 ["R"] = some [("a", 1)] := by
  have h := get_config_merge_semantics exFs ["R"] ["sub"] (by
    intro d cfg hc
    unfold exFs at hc
    split_ifs at hc with hd1 hd2
    · cases hc
      decide
    · cases hc
      decide)
  exact ⟨h.2.2.1, h.2.2.2⟩

/-- C8: rebasing a path strictly under directory `A` onto `B` and then
rebasing the result from `B` back onto `A` restores the original path,
for normalized absolute component paths. -/
theorem swap_root_involutive (A B suffix : List String)
    (hA : Path.normalComps A) (hB : Path.normalComps B)
    (hs : Path.normalComps suffix) (hne : suffix ≠ []) :
    Path.swap_root (Path.swap_root (A ++ suffix) A B) B A = A ++ suffix := by
  unfold Path.swap_root Path.pyJoin
  rw [Path.pyRelpath_under A suffix hA hs hne]
  rw [Path.pyRelpath_under B suffix hB hs hne]

/-- Witness for C8 at `/home/A/x.txt` rebased to `/home/B` and back. -/
theorem swap_root_involutive_witness :
    Path.swap_root (Path.swap_root ["home", "A", "x.txt"] ["home", "A"] ["home", "B"])
        ["home", "B"] ["home", "A"] = ["home", "A", "x.txt"] :=
  swap_root_involutive ["home", "A"] ["home", "B"] ["x.txt"]
    (by decide) (by decide) (by decide) (by decide)
